import Mathlib

/-!
Verification development for the markdown-to-pdf repository.

The client logic is translated from `src/App.jsx` (the current generation of the
client: server-side PDF rendering).  The FastAPI backend `api/index.py` is not part
of the repository sources here (only its documentation and its client callers are),
so the endpoint handlers are modelled from the specification and marked as such.
-/

namespace MarkdownToPdf

/-! ## Client data model (src/App.jsx) -/

/-- The fixed enumerated course set, `COURSES` in src/App.jsx lines 5-13. -/
def COURSES : List String :=
  [ "AI Product Development Fundamentals"
  , "Building AI-Powered Applications"
  , "Prompt Engineering & LLM Integration"
  , "Full-Stack AI Development"
  , "AI Product Design & UX"
  , "Digital Profile Creation"
  , "Deploying AI Solutions" ]

/-- The certificate form state, `certForm` in src/App.jsx lines 61-66. -/
structure CertForm where
  participant_name : String
  course_name : String
  completion_date : String
  instructor_name : String
deriving Repr, DecidableEq

/-- Initial value of `certForm` (src/App.jsx lines 61-66): empty participant and
course, today's date, and the default instructor. -/
def initialCertForm (today : String) : CertForm :=
  { participant_name := ""
  , course_name := ""
  , completion_date := today
  , instructor_name := "IntelliForge AI Team" }

/-- The component state relevant to the two request flows: the editor text, the two
busy flags, the error/success display state and the certificate form. -/
structure ClientState where
  markdown : String
  isConverting : Bool
  error : Option String
  certForm : CertForm
  isGenerating : Bool
  certError : Option String
  certSuccess : Bool
deriving Repr, DecidableEq

/-! ## JavaScript string primitives used by the client -/

/-- Whitespace in the sense of the JavaScript `\s` regex class (ECMA-262 WhiteSpace
and LineTerminator). -/
def jsWhitespaceChar (c : Char) : Bool :=
  c = ' ' || c = '\t' || c = '\n' || c = '\r' || c = '\x0b' || c = '\x0c' ||
  c.val = 0x00A0 || c.val = 0xFEFF || c.val = 0x1680 ||
  (0x2000 ≤ c.val && c.val ≤ 0x200A) ||
  c.val = 0x2028 || c.val = 0x2029 || c.val = 0x202F || c.val = 0x205F || c.val = 0x3000

/-- JavaScript `String.prototype.trim`: strip leading and trailing `\s` characters. -/
def jsTrim (s : String) : String :=
  ⟨((s.data.dropWhile jsWhitespaceChar).reverse.dropWhile jsWhitespaceChar).reverse⟩

/-- One pass of the global regex replace `.replace(/\s+/g, '_')` over a character
list.  The boolean records whether the previous character was inside a whitespace
run (so that a whole maximal run produces a single underscore). -/
def replaceWsAux : Bool → List Char → List Char
  | _, [] => []
  | inRun, c :: rest =>
    if jsWhitespaceChar c then
      if inRun then replaceWsAux true rest
      else '_' :: replaceWsAux true rest
    else c :: replaceWsAux false rest

/-- JavaScript `s.replace(/\s+/g, '_')`: each maximal run of whitespace becomes one
underscore. -/
def jsReplaceWs (s : String) : String := ⟨replaceWsAux false s.data⟩

/-- The suggested certificate download filename, src/App.jsx line 133. -/
def certDownloadName (f : CertForm) : String :=
  "Certificate_" ++ jsReplaceWs f.participant_name ++ ".pdf"

/-! ## DOM effects of the download flow -/

/-- The DOM/browser operations performed by the blob-download sequence
(src/App.jsx lines 90-98 and 129-137). -/
inductive DomEffect where
  | createObjectURL
  | appendChild
  | anchorClick
  | revokeObjectURL
  | removeChild
deriving Repr, DecidableEq

/-- The effect sequence of a successful download: create the object URL, append the
transient anchor, click it, then revoke the URL and remove the anchor. -/
def downloadEffects : List DomEffect :=
  [ DomEffect.createObjectURL, DomEffect.appendChild, DomEffect.anchorClick
  , DomEffect.revokeObjectURL, DomEffect.removeChild ]

/-- An abstraction of the browser state the effects act on: the number of children
appended to `document.body` and the number of live object-URL handles. -/
structure DomModel where
  bodyChildren : Nat
  liveUrls : Nat
deriving Repr, DecidableEq

def applyEffect (d : DomModel) : DomEffect → DomModel
  | DomEffect.createObjectURL => { d with liveUrls := d.liveUrls + 1 }
  | DomEffect.appendChild => { d with bodyChildren := d.bodyChildren + 1 }
  | DomEffect.anchorClick => d
  | DomEffect.revokeObjectURL => { d with liveUrls := d.liveUrls - 1 }
  | DomEffect.removeChild => { d with bodyChildren := d.bodyChildren - 1 }

def applyEffects (d : DomModel) (l : List DomEffect) : DomModel := l.foldl applyEffect d

/-! ## The two request flows -/

/-- How a run of an async request flow can end, seen from the client: the fetch
promise rejects, the response is not ok (carrying the parsed JSON `detail` field:
`none` when `response.json()` itself failed, `some none` when the JSON has no usable
`detail`), a throw during the blob/DOM download steps, or success. -/
inductive FetchOutcome where
  | networkError (msg : String)
  | httpError (status : Nat) (parsed : Option (Option String))
  | downloadFailure (msg : String)
  | success
deriving Repr, DecidableEq

/-- The error message built for a non-ok response (src/App.jsx lines 85-88 and
124-127): `response.json()` failing is replaced by `{detail: 'Unknown error'}`, and
a missing or empty `detail` falls back to `Server error: <status>`. -/
def httpErrorMessage (status : Nat) (parsed : Option (Option String)) : String :=
  let detail : Option String :=
    match parsed with
    | none => some "Unknown error"
    | some d => d
  match detail with
  | some d => if d = "" then "Server error: " ++ toString status else d
  | none => "Server error: " ++ toString status

/-- The JSON body sent to POST /api/convert (src/App.jsx line 82). -/
structure ConvertRequestBody where
  markdown : String
  filename : String
deriving Repr, DecidableEq

def convertRequestBody (s : ClientState) : ConvertRequestBody :=
  { markdown := s.markdown, filename := "markdown-export.pdf" }

/-- Result of one complete run of `convertToPdf`. -/
structure ConvertResult where
  state : ClientState
  requests : Nat
  requestBody : Option ConvertRequestBody
  effects : List DomEffect
  downloadName : Option String
deriving Repr, DecidableEq

/-- One complete run of `convertToPdf` (src/App.jsx lines 74-105), parametrised by
how the fetch/download ends.  It always issues exactly one fetch, catches every
thrown error into the `error` display state, and clears `isConverting` in the
`finally` block. -/
def runConvertToPdf (s : ClientState) (o : FetchOutcome) : ConvertResult :=
  let s1 : ClientState := { s with isConverting := true, error := none }
  let body := convertRequestBody s
  match o with
  | FetchOutcome.networkError msg =>
      { state := { s1 with error := some msg, isConverting := false }
      , requests := 1, requestBody := some body, effects := [], downloadName := none }
  | FetchOutcome.httpError status parsed =>
      { state := { s1 with error := some (httpErrorMessage status parsed), isConverting := false }
      , requests := 1, requestBody := some body, effects := [], downloadName := none }
  | FetchOutcome.downloadFailure msg =>
      { state := { s1 with error := some msg, isConverting := false }
      , requests := 1, requestBody := some body, effects := [], downloadName := none }
  | FetchOutcome.success =>
      { state := { s1 with isConverting := false }
      , requests := 1, requestBody := some body, effects := downloadEffects
      , downloadName := some "markdown-export.pdf" }

/-- Client-side validation of the certificate form (src/App.jsx lines 114-116):
the first failing check throws, with a message naming the field. -/
def certValidationError (f : CertForm) : Option String :=
  if jsTrim f.participant_name = "" then some "Please enter participant name"
  else if f.course_name = "" then some "Please select a course"
  else if f.completion_date = "" then some "Please select a date"
  else none

/-- Result of one complete run of `generateCertificate`. -/
structure CertResult where
  state : ClientState
  requests : Nat
  requestBody : Option CertForm
  effects : List DomEffect
  downloadName : Option String
deriving Repr, DecidableEq

/-- One complete run of `generateCertificate` (src/App.jsx lines 107-145).  A
validation failure throws before the fetch, so no request is issued; otherwise the
body is `JSON.stringify(certForm)`, i.e. exactly the current form state.  Every
thrown error is caught into `certError`, success sets `certSuccess`, and the
`finally` block clears `isGenerating` on every path. -/
def runGenerateCertificate (s : ClientState) (o : FetchOutcome) : CertResult :=
  let s1 : ClientState := { s with isGenerating := true, certError := none, certSuccess := false }
  match certValidationError s.certForm with
  | some msg =>
      { state := { s1 with certError := some msg, isGenerating := false }
      , requests := 0, requestBody := none, effects := [], downloadName := none }
  | none =>
    match o with
    | FetchOutcome.networkError msg =>
        { state := { s1 with certError := some msg, isGenerating := false }
        , requests := 1, requestBody := some s.certForm, effects := [], downloadName := none }
    | FetchOutcome.httpError status parsed =>
        { state := { s1 with certError := some (httpErrorMessage status parsed), isGenerating := false }
        , requests := 1, requestBody := some s.certForm, effects := [], downloadName := none }
    | FetchOutcome.downloadFailure msg =>
        { state := { s1 with certError := some msg, isGenerating := false }
        , requests := 1, requestBody := some s.certForm, effects := [], downloadName := none }
    | FetchOutcome.success =>
        { state := { s1 with certSuccess := true, isGenerating := false }
        , requests := 1, requestBody := some s.certForm, effects := downloadEffects
        , downloadName := some (certDownloadName s.certForm) }

/-- The fields editable through `updateCertField` (src/App.jsx lines 147-151). -/
inductive CertField where
  | participant_name
  | course_name
  | completion_date
  | instructor_name
deriving Repr, DecidableEq

def setCertField (f : CertForm) : CertField → String → CertForm
  | CertField.participant_name, v => { f with participant_name := v }
  | CertField.course_name, v => { f with course_name := v }
  | CertField.completion_date, v => { f with completion_date := v }
  | CertField.instructor_name, v => { f with instructor_name := v }

/-- `updateCertField` (src/App.jsx lines 147-151): update one field and clear both
the error and the success display state. -/
def updateCertField (s : ClientState) (fld : CertField) (v : String) : ClientState :=
  { s with certForm := setCertField s.certForm fld v
         , certError := none, certSuccess := false }

/-- The `disabled` attribute of the Download PDF button (src/App.jsx line 196). -/
def downloadBtnDisabled (s : ClientState) : Bool := s.isConverting

/-- The `disabled` attribute of the certificate submit button (src/App.jsx line 285). -/
def certSubmitBtnDisabled (s : ClientState) : Bool := s.isGenerating

/-! ## Small-step model of one form's submission machine

Each form (conversion and certificate) has a busy flag (`isConverting`,
`isGenerating`) that doubles as the submit button's `disabled` attribute, so a
click while busy never reaches the async handler.  The machine below is the
event-level view of that flow: `click` starts a run when not busy (issuing one
fetch), and `settle` is the request finishing either way (the `finally` block
clearing the busy flag). -/

structure FormMachine where
  busy : Bool
  inFlight : Nat
  requestsSent : Nat
deriving Repr, DecidableEq

inductive FormEvent where
  | click
  | settle
deriving Repr, DecidableEq

def formStep (m : FormMachine) : FormEvent → FormMachine
  | FormEvent.click =>
      if m.busy then m
      else { busy := true, inFlight := m.inFlight + 1, requestsSent := m.requestsSent + 1 }
  | FormEvent.settle =>
      if m.busy then { m with busy := false, inFlight := m.inFlight - 1 } else m

def formRun (m : FormMachine) (evs : List FormEvent) : FormMachine := evs.foldl formStep m

/-- The page loads with the flag clear and nothing in flight. -/
def initFormMachine : FormMachine := { busy := false, inFlight := 0, requestsSent := 0 }

/-! ## Server endpoints

The FastAPI backend `api/index.py` is not among the repository sources (only its
documentation and its client callers are), so its handlers are modelled from the
specification below. -/

/-- Modelled from the spec: body of `POST /api/convert`, spec section 6:
`{markdown: string, filename?: string}`; `none` for an absent field. -/
structure MarkdownRequest where
  markdown : Option String
  filename : Option String
deriving Repr, DecidableEq

/-- Modelled from the spec: body of `POST /api/certificate`, spec section 6:
`{participant_name, course_name, completion_date, instructor_name?}`. -/
structure CertificateRequest where
  participant_name : String
  course_name : String
  completion_date : String
  instructor_name : Option String
deriving Repr, DecidableEq

/-- Modelled from the spec: an endpoint response is either PDF bytes with a
suggested filename, or a JSON error `{detail: ...}` with a status code. -/
inductive ApiResponse where
  | pdf (bytes : List Nat) (filename : String)
  | jsonError (status : Nat) (detail : String)
deriving Repr, DecidableEq

/-- Modelled from the spec: the two external collaborators of spec section 6 — a
total markdown-to-HTML converter and an HTML-to-PDF engine that may fail on
malformed markup (`none` = RenderError). -/
structure ServerEnv where
  md2html : String → String
  htmlToPdf : String → Option (List Nat)

/-- Modelled from the spec: per-process server state.  Spec section 5 allows no
shared mutable state across requests beyond possible logging, so the only field is
a log counter that never feeds back into any response. -/
structure ServerState where
  logLines : Nat
deriving Repr, DecidableEq

/-- Modelled from the spec: the fixed plain-document HTML shell (spec section 4.1);
the fragment is embedded into a template with fixed styling. -/
def wrapDocumentTemplate (fragment : String) : String :=
  "<html><head><title>Document</title></head><body class=professional>"
    ++ fragment ++ "</body></html>"

/-- Modelled from the spec: the fixed certificate HTML shell (spec section 4.3);
field values are substituted directly, with the instructor defaulting per the data
model of spec section 3. -/
def wrapCertificateTemplate (req : CertificateRequest) : String :=
  "<html><body><h1>CERTIFICATE</h1><p>" ++ req.participant_name ++ "</p><p>"
    ++ req.course_name ++ "</p><p>" ++ req.completion_date ++ "</p><p>"
    ++ (req.instructor_name.getD "IntelliForge AI Team") ++ "</p></body></html>"

/-- Result of one endpoint invocation: the response, how many times the
HTML-to-PDF renderer was invoked, and the server state afterwards. -/
structure HandlerResult where
  response : ApiResponse
  rendererCalls : Nat
  finalState : ServerState
deriving Repr, DecidableEq

/-- Modelled from the spec: the `POST /api/convert` handler (spec sections 4.2 and
6).  Missing or empty `markdown` is rejected with a 4xx JSON error before the
renderer runs; otherwise the markdown is converted, wrapped in the fixed template
and rendered, with renderer failure mapped to a 5xx error. -/
def convertHandler (env : ServerEnv) (σ : ServerState) (req : MarkdownRequest) :
    HandlerResult :=
  let σ1 : ServerState := { logLines := σ.logLines + 1 }
  match req.markdown with
  | none =>
      { response := ApiResponse.jsonError 422 "Field required: markdown"
      , rendererCalls := 0, finalState := σ1 }
  | some md =>
    if md = "" then
      { response := ApiResponse.jsonError 400 "Markdown content cannot be empty"
      , rendererCalls := 0, finalState := σ1 }
    else
      let html := env.md2html md
      let styled := wrapDocumentTemplate html
      match env.htmlToPdf styled with
      | none =>
          { response := ApiResponse.jsonError 500 "PDF generation failed"
          , rendererCalls := 1, finalState := σ1 }
      | some bytes =>
          { response := ApiResponse.pdf bytes (req.filename.getD "document.pdf")
          , rendererCalls := 1, finalState := σ1 }

/-- Modelled from the spec: the `POST /api/certificate` handler (spec sections 4.3
and 6).  All required fields must be present and the course must belong to the
enumerated set, else a 4xx validation error naming the field is returned before the
renderer runs; the suggested filename is the sanitized participant name. -/
def certificateHandler (env : ServerEnv) (σ : ServerState) (req : CertificateRequest) :
    HandlerResult :=
  let σ1 : ServerState := { logLines := σ.logLines + 1 }
  if jsTrim req.participant_name = "" then
    { response := ApiResponse.jsonError 422 "Field required: participant_name"
    , rendererCalls := 0, finalState := σ1 }
  else if req.completion_date = "" then
    { response := ApiResponse.jsonError 422 "Field required: completion_date"
    , rendererCalls := 0, finalState := σ1 }
  else if ¬ req.course_name ∈ COURSES then
    { response := ApiResponse.jsonError 400 "Invalid course_name"
    , rendererCalls := 0, finalState := σ1 }
  else
    match env.htmlToPdf (wrapCertificateTemplate req) with
    | none =>
        { response := ApiResponse.jsonError 500 "PDF generation failed"
        , rendererCalls := 1, finalState := σ1 }
    | some bytes =>
        { response := ApiResponse.pdf bytes (certDownloadName
            { participant_name := req.participant_name, course_name := req.course_name
            , completion_date := req.completion_date
            , instructor_name := req.instructor_name.getD "IntelliForge AI Team" })
        , rendererCalls := 1, finalState := σ1 }

/-! ## Concrete fixtures used by witnesses -/

/-- The certificate form of end-to-end scenario 3 (participant "Jane Doe", a valid
course, a date), with the instructor field cleared to the empty string. -/
def janeDoeForm : CertForm :=
  { participant_name := "Jane Doe"
  , course_name := "AI Product Development Fundamentals"
  , completion_date := "2026-01-01"
  , instructor_name := "" }

/-- A client state whose certificate form fails validation (empty participant). -/
def sampleEmptyState : ClientState :=
  { markdown := "# Test"
  , isConverting := false, error := none
  , certForm := initialCertForm "2026-01-01"
  , isGenerating := false, certError := none, certSuccess := false }

/-- A client state whose certificate form passes validation. -/
def sampleValidState : ClientState :=
  { markdown := "# Test"
  , isConverting := false, error := none
  , certForm := janeDoeForm
  , isGenerating := false, certError := none, certSuccess := false }

/-- A server environment with trivial but total collaborators. -/
def sampleEnv : ServerEnv :=
  { md2html := fun s => s, htmlToPdf := fun _ => some [37, 80, 68, 70] }

/-! ## The specification's reading of the filename sanitization

`WsRunReplaced l out` holds when `out` arises from `l` by replacing every maximal
run of whitespace by exactly one underscore and keeping every other character. -/

inductive WsRunReplaced : List Char → List Char → Prop where
  | nil : WsRunReplaced [] []
  | keep (c : Char) (rest out : List Char) :
      jsWhitespaceChar c = false → WsRunReplaced rest out →
      WsRunReplaced (c :: rest) (c :: out)
  | run (r rest out : List Char) :
      r ≠ [] → (∀ c ∈ r, jsWhitespaceChar c = true) →
      (∀ c, rest.head? = some c → jsWhitespaceChar c = false) →
      WsRunReplaced rest out →
      WsRunReplaced (r ++ rest) ('_' :: out)

/-! ## Helper lemmas -/

theorem replaceWsAux_true_eq (l : List Char) :
    replaceWsAux true l = replaceWsAux false (l.dropWhile jsWhitespaceChar) := by
  induction l with
  | nil => rfl
  | cons c rest ih =>
    cases hc : jsWhitespaceChar c with
    | true => simp [replaceWsAux, hc, List.dropWhile_cons, ih]
    | false => simp [replaceWsAux, hc, List.dropWhile_cons]

theorem dropWhile_head_false (p : Char → Bool) :
    ∀ (l : List Char) (c : Char), (l.dropWhile p).head? = some c → p c = false := by
  intro l
  induction l with
  | nil => intro c h; simp [List.dropWhile] at h
  | cons a t ih =>
    intro c h
    cases ha : p a with
    | true =>
      rw [List.dropWhile_cons] at h
      simp [ha] at h
      exact ih c (by simpa using h)
    | false =>
      rw [List.dropWhile_cons] at h
      simp [ha] at h
      rw [← h]
      exact ha

theorem replaceWs_spec_aux :
    ∀ (n : Nat) (l : List Char), l.length ≤ n → WsRunReplaced l (replaceWsAux false l) := by
  intro n
  induction n with
  | zero =>
    intro l hl
    have hnil : l = [] := List.length_eq_zero.mp (Nat.le_zero.mp hl)
    subst hnil
    exact WsRunReplaced.nil
  | succ n ih =>
    intro l hl
    match l with
    | [] => exact WsRunReplaced.nil
    | c :: rest =>
      have hr : rest.length ≤ n := by
        simp only [List.length_cons] at hl
        omega
      cases hc : jsWhitespaceChar c with
      | false =>
        have hstep : replaceWsAux false (c :: rest) = c :: replaceWsAux false rest := by
          simp [replaceWsAux, hc]
        rw [hstep]
        exact WsRunReplaced.keep c rest _ hc (ih rest hr)
      | true =>
        have hstep : replaceWsAux false (c :: rest) =
            '_' :: replaceWsAux false (rest.dropWhile jsWhitespaceChar) := by
          simp [replaceWsAux, hc, replaceWsAux_true_eq]
        rw [hstep]
        have hlen : (rest.dropWhile jsWhitespaceChar).length ≤ n :=
          le_trans (List.dropWhile_sublist jsWhitespaceChar).length_le hr
        have hsplit : (c :: rest.takeWhile jsWhitespaceChar) ++ rest.dropWhile jsWhitespaceChar
            = c :: rest := by
          simp [List.takeWhile_append_dropWhile]
        have happly := WsRunReplaced.run (c :: rest.takeWhile jsWhitespaceChar)
          (rest.dropWhile jsWhitespaceChar) (replaceWsAux false (rest.dropWhile jsWhitespaceChar))
          (by simp)
          (by
            intro c' hc'
            rcases List.mem_cons.mp hc' with h | h
            · rw [h]; exact hc
            · simpa using List.mem_takeWhile_imp h)
          (fun c' h => dropWhile_head_false jsWhitespaceChar rest c' h)
          (ih _ hlen)
        rw [hsplit] at happly
        exact happly

theorem replaceWs_spec (l : List Char) : WsRunReplaced l (replaceWsAux false l) :=
  replaceWs_spec_aux l.length l le_rfl

theorem certValidationError_eq_none_iff (f : CertForm) :
    certValidationError f = none ↔
      jsTrim f.participant_name ≠ "" ∧ f.course_name ≠ "" ∧ f.completion_date ≠ "" := by
  unfold certValidationError
  split_ifs <;> simp_all

theorem runGenerateCertificate_requests (s : ClientState) (o : FetchOutcome) :
    (runGenerateCertificate s o).requests =
      if certValidationError s.certForm = none then 1 else 0 := by
  cases h : certValidationError s.certForm <;> cases o <;>
    simp [runGenerateCertificate, h]

theorem formRun_inFlight_invariant (evs : List FormEvent) (m : FormMachine)
    (h : m.inFlight = if m.busy then 1 else 0) :
    (formRun m evs).inFlight = if (formRun m evs).busy then 1 else 0 := by
  induction evs generalizing m with
  | nil => exact h
  | cons e evs ih =>
    have hstep : formRun m (e :: evs) = formRun (formStep m e) evs := rfl
    rw [hstep]
    apply ih
    cases e <;> cases hb : m.busy <;> simp [formStep, hb, hb ▸ h]

/-! ## Claim theorems -/

/-- C1: every request to POST /api/convert whose markdown field is absent or the
empty string is answered with a 4xx validation error whose JSON body carries a
`detail` message, and the renderer is never invoked. -/
theorem convert_endpoint_rejects_missing_markdown
    (env : ServerEnv) (σ : ServerState) (req : MarkdownRequest)
    (h : req.markdown = none ∨ req.markdown = some "") :
    ∃ status detail,
      (convertHandler env σ req).response = ApiResponse.jsonError status detail ∧
      400 ≤ status ∧ status < 500 ∧
      (convertHandler env σ req).rendererCalls = 0 := by
  rcases h with h | h
  · refine ⟨422, "Field required: markdown", ?_, by omega, by omega, ?_⟩ <;>
      simp [convertHandler, h]
  · refine ⟨400, "Markdown content cannot be empty", ?_, by omega, by omega, ?_⟩ <;>
      simp [convertHandler, h]

/-- Witness for C1 at the concrete request with an empty markdown string. -/
theorem convert_endpoint_rejects_missing_markdown_witness :
    ∃ status detail,
      (convertHandler sampleEnv ⟨0⟩ ⟨some "", none⟩).response =
        ApiResponse.jsonError status detail ∧
      400 ≤ status ∧ status < 500 ∧
      (convertHandler sampleEnv ⟨0⟩ ⟨some "", none⟩).rendererCalls = 0 :=
  convert_endpoint_rejects_missing_markdown sampleEnv ⟨0⟩ ⟨some "", none⟩ (Or.inr rfl)

/-- C2: a CertificateRequest whose course_name lies outside the enumerated course
set is answered with a 4xx validation error and the renderer is never invoked, even
when the participant name, completion date and instructor are all valid. -/
theorem certificate_endpoint_rejects_unknown_course
    (env : ServerEnv) (σ : ServerState) (req : CertificateRequest)
    (hname : jsTrim req.participant_name ≠ "") (hdate : req.completion_date ≠ "")
    (hcourse : req.course_name ∉ COURSES) :
    ∃ status detail,
      (certificateHandler env σ req).response = ApiResponse.jsonError status detail ∧
      400 ≤ status ∧ status < 500 ∧
      (certificateHandler env σ req).rendererCalls = 0 := by
  refine ⟨400, "Invalid course_name", ?_, by omega, by omega, ?_⟩ <;>
    simp [certificateHandler, hname, hdate, hcourse]

/-- Witness for C2 at a concrete payload with an unrecognized course and all other
fields valid. -/
theorem certificate_endpoint_rejects_unknown_course_witness :
    ∃ status detail,
      (certificateHandler sampleEnv ⟨0⟩ ⟨"Jane Doe", "Basket Weaving", "2026-01-01", none⟩).response
        = ApiResponse.jsonError status detail ∧
      400 ≤ status ∧ status < 500 ∧
      (certificateHandler sampleEnv ⟨0⟩ ⟨"Jane Doe", "Basket Weaving", "2026-01-01", none⟩).rendererCalls = 0 :=
  certificate_endpoint_rejects_unknown_course sampleEnv ⟨0⟩
    ⟨"Jane Doe", "Basket Weaving", "2026-01-01", none⟩
    (by decide) (by decide) (by decide)

/-- C3: the busy flag disables the submit button while a request is in flight, so a
click while busy is a no-op, at most one request per form is ever in flight from
the initial state, and a double-click from an idle state issues exactly one
request. -/
theorem busy_flag_prevents_concurrent_requests :
    (∀ evs : List FormEvent, (formRun initFormMachine evs).inFlight ≤ 1) ∧
    (∀ m : FormMachine, m.busy = true → formStep m FormEvent.click = m) ∧
    (∀ m : FormMachine, m.busy = false →
      (formRun m [FormEvent.click, FormEvent.click]).requestsSent = m.requestsSent + 1) := by
  refine ⟨?_, ?_, ?_⟩
  · intro evs
    have h := formRun_inFlight_invariant evs initFormMachine (by simp [initFormMachine])
    rw [h]
    split <;> omega
  · intro m h
    simp [formStep, h]
  · intro m h
    simp [formRun, formStep, h]

/-- Witness for C3: a double-click from the initial idle state sends one request. -/
theorem busy_flag_prevents_concurrent_requests_witness :
    (formRun initFormMachine [FormEvent.click, FormEvent.click]).requestsSent =
      initFormMachine.requestsSent + 1 :=
  busy_flag_prevents_concurrent_requests.2.2 initFormMachine rfl

/-- C4: every run of either request flow, whatever its outcome (validation failure,
network failure, non-ok response, download failure or success), ends with the busy
flag cleared, so the submit button is enabled again. -/
theorem flows_always_clear_busy (s : ClientState) (o : FetchOutcome) :
    (runConvertToPdf s o).state.isConverting = false ∧
    (runGenerateCertificate s o).state.isGenerating = false ∧
    downloadBtnDisabled (runConvertToPdf s o).state = false ∧
    certSubmitBtnDisabled (runGenerateCertificate s o).state = false := by
  cases h : certValidationError s.certForm <;> cases o <;>
    simp [runConvertToPdf, runGenerateCertificate, downloadBtnDisabled,
      certSubmitBtnDisabled, h]

/-- C5: a certificate submission with a missing required field raises a validation
error naming the offending field and issues no HTTP request; the fetch is reached
only when all three required fields are non-empty. -/
theorem cert_client_validation (s : ClientState) (o : FetchOutcome) :
    (jsTrim s.certForm.participant_name = "" →
      (runGenerateCertificate s o).requests = 0 ∧
      (runGenerateCertificate s o).state.certError = some "Please enter participant name") ∧
    (jsTrim s.certForm.participant_name ≠ "" → s.certForm.course_name = "" →
      (runGenerateCertificate s o).requests = 0 ∧
      (runGenerateCertificate s o).state.certError = some "Please select a course") ∧
    (jsTrim s.certForm.participant_name ≠ "" → s.certForm.course_name ≠ "" →
        s.certForm.completion_date = "" →
      (runGenerateCertificate s o).requests = 0 ∧
      (runGenerateCertificate s o).state.certError = some "Please select a date") ∧
    (1 ≤ (runGenerateCertificate s o).requests →
      jsTrim s.certForm.participant_name ≠ "" ∧ s.certForm.course_name ≠ "" ∧
      s.certForm.completion_date ≠ "") := by
  refine ⟨?_, ?_, ?_, ?_⟩
  · intro h1
    have hv : certValidationError s.certForm = some "Please enter participant name" := by
      simp [certValidationError, h1]
    cases o <;> simp [runGenerateCertificate, hv]
  · intro h1 h2
    have hv : certValidationError s.certForm = some "Please select a course" := by
      simp [certValidationError, h1, h2]
    cases o <;> simp [runGenerateCertificate, hv]
  · intro h1 h2 h3
    have hv : certValidationError s.certForm = some "Please select a date" := by
      simp [certValidationError, h1, h2, h3]
    cases o <;> simp [runGenerateCertificate, hv]
  · intro hreq
    rw [runGenerateCertificate_requests] at hreq
    by_cases hv : certValidationError s.certForm = none
    · exact (certValidationError_eq_none_iff s.certForm).mp hv
    · simp [hv] at hreq

/-- Witness for C5: an empty participant name yields the field-naming error and no
request, while the Jane Doe form reaches the fetch with all fields non-empty. -/
theorem cert_client_validation_witness :
    ((runGenerateCertificate sampleEmptyState FetchOutcome.success).requests = 0 ∧
     (runGenerateCertificate sampleEmptyState FetchOutcome.success).state.certError =
       some "Please enter participant name") ∧
    (jsTrim sampleValidState.certForm.participant_name ≠ "" ∧
     sampleValidState.certForm.course_name ≠ "" ∧
     sampleValidState.certForm.completion_date ≠ "") :=
  ⟨(cert_client_validation sampleEmptyState FetchOutcome.success).1 (by decide),
   (cert_client_validation sampleValidState FetchOutcome.success).2.2.2 (by decide)⟩

/-- C6: the suggested certificate download filename is exactly `Certificate_`
followed by the participant name with every maximal run of whitespace replaced by
one underscore, followed by `.pdf`; for participant "Jane Doe" the filename is
`Certificate_Jane_Doe.pdf`, which contains `Jane_Doe`. -/
theorem certificate_filename_sanitized :
    (∀ f : CertForm,
      WsRunReplaced f.participant_name.data (jsReplaceWs f.participant_name).data ∧
      certDownloadName f = "Certificate_" ++ jsReplaceWs f.participant_name ++ ".pdf") ∧
    (∀ s : ClientState, certValidationError s.certForm = none →
      (runGenerateCertificate s FetchOutcome.success).downloadName =
        some (certDownloadName s.certForm)) ∧
    certDownloadName janeDoeForm = "Certificate_Jane_Doe.pdf" ∧
    (∃ pre post, certDownloadName janeDoeForm = pre ++ "Jane_Doe" ++ post) := by
  refine ⟨?_, ?_, ?_, ⟨"Certificate_", ".pdf", ?_⟩⟩
  · intro f
    exact ⟨replaceWs_spec f.participant_name.data, rfl⟩
  · intro s h
    simp [runGenerateCertificate, h]
  · decide
  · decide

/-- Witness for C6: the success run on the Jane Doe form suggests the sanitized
filename. -/
theorem certificate_filename_sanitized_witness :
    (runGenerateCertificate sampleValidState FetchOutcome.success).downloadName =
      some (certDownloadName sampleValidState.certForm) :=
  certificate_filename_sanitized.2.1 sampleValidState (by decide)

/-- C7: a successful download performs exactly the sequence create-URL, append
anchor, click, revoke-URL, remove anchor, and running that sequence on any DOM
state returns it unchanged: the body is as before and no object-URL handle
remains. -/
theorem download_flow_restores_dom :
    (∀ s : ClientState, (runConvertToPdf s FetchOutcome.success).effects = downloadEffects) ∧
    (∀ s : ClientState, certValidationError s.certForm = none →
      (runGenerateCertificate s FetchOutcome.success).effects = downloadEffects) ∧
    (∀ d : DomModel, applyEffects d downloadEffects = d) ∧
    downloadEffects = [DomEffect.createObjectURL, DomEffect.appendChild,
      DomEffect.anchorClick, DomEffect.revokeObjectURL, DomEffect.removeChild] := by
  refine ⟨?_, ?_, ?_, rfl⟩
  · intro s
    simp [runConvertToPdf]
  · intro s h
    simp [runGenerateCertificate, h]
  · intro d
    cases d
    simp [applyEffects, downloadEffects, applyEffect]

/-- Witness for C7: the certificate success run on the valid form performs the
balanced effect sequence. -/
theorem download_flow_restores_dom_witness :
    (runGenerateCertificate sampleValidState FetchOutcome.success).effects =
      downloadEffects :=
  download_flow_restores_dom.2.1 sampleValidState (by decide)

/-- C8: the conversion pipeline is deterministic — the endpoint's response does not
depend on the server state, so submitting the same request twice in sequence yields
the same rendered document, and the client request body is a function of the editor
state alone. -/
theorem conversion_pipeline_deterministic :
    (∀ (env : ServerEnv) (σ σ' : ServerState) (req : MarkdownRequest),
      (convertHandler env σ req).response = (convertHandler env σ' req).response) ∧
    (∀ (env : ServerEnv) (σ : ServerState) (req : MarkdownRequest),
      (convertHandler env ((convertHandler env σ req).finalState) req).response =
        (convertHandler env σ req).response) ∧
    (∀ s t : ClientState, s.markdown = t.markdown →
      convertRequestBody s = convertRequestBody t) := by
  have hstate : ∀ (env : ServerEnv) (σ σ' : ServerState) (req : MarkdownRequest),
      (convertHandler env σ req).response = (convertHandler env σ' req).response := by
    intro env σ σ' req
    cases h : req.markdown with
    | none => simp [convertHandler, h]
    | some md =>
      by_cases hmd : md = ""
      · simp [convertHandler, h, hmd]
      · cases hp : env.htmlToPdf (wrapDocumentTemplate (env.md2html md)) <;>
          simp [convertHandler, h, hmd, hp]
  refine ⟨hstate, ?_, ?_⟩
  · intro env σ req
    exact hstate env _ σ req
  · intro s t h
    simp [convertRequestBody, h]

/-- Witness for C8: two client states with the same editor text produce the same
request body. -/
theorem conversion_pipeline_deterministic_witness :
    convertRequestBody sampleEmptyState = convertRequestBody sampleValidState :=
  conversion_pipeline_deterministic.2.2 sampleEmptyState sampleValidState rfl

/-- C9: the conversion flow always sends the body
`{markdown: <editor text>, filename: "markdown-export.pdf"}` and saves the download
under the constant name `markdown-export.pdf`; no input influences the filename. -/
theorem convert_filename_constant (s : ClientState) (o : FetchOutcome) :
    (runConvertToPdf s o).requestBody =
      some { markdown := s.markdown, filename := "markdown-export.pdf" } ∧
    (runConvertToPdf s FetchOutcome.success).downloadName = some "markdown-export.pdf" ∧
    (∀ t : ClientState, (convertRequestBody s).filename = (convertRequestBody t).filename) := by
  cases o <;> simp [runConvertToPdf, convertRequestBody]

/-- C10: the certificate request body is exactly the current form state (a cleared
instructor field is submitted as the empty string, with no re-substitution of the
default), the default instructor exists only in the initial form value, and every
field edit clears both the error and the success display state. -/
theorem cert_body_is_form_state :
    (∀ (s : ClientState) (o : FetchOutcome), certValidationError s.certForm = none →
      (runGenerateCertificate s o).requestBody = some s.certForm) ∧
    (∀ (s : ClientState) (o : FetchOutcome), certValidationError s.certForm = none →
        s.certForm.instructor_name = "" →
      ∃ f : CertForm, (runGenerateCertificate s o).requestBody = some f ∧
        f.instructor_name = "") ∧
    (∀ today : String, (initialCertForm today).instructor_name = "IntelliForge AI Team") ∧
    (∀ (s : ClientState) (fld : CertField) (v : String),
      (updateCertField s fld v).certError = none ∧
      (updateCertField s fld v).certSuccess = false ∧
      (updateCertField s fld v).certForm = setCertField s.certForm fld v) := by
  have hbody : ∀ (s : ClientState) (o : FetchOutcome), certValidationError s.certForm = none →
      (runGenerateCertificate s o).requestBody = some s.certForm := by
    intro s o h
    cases o <;> simp [runGenerateCertificate, h]
  refine ⟨hbody, ?_, fun _ => rfl, ?_⟩
  · intro s o h hins
    exact ⟨s.certForm, hbody s o h, hins⟩
  · intro s fld v
    exact ⟨rfl, rfl, rfl⟩

/-- Witness for C10: with the instructor field cleared, the body sent is the form
state itself, instructor empty and unsubstituted. -/
theorem cert_body_is_form_state_witness :
    ∃ f : CertForm,
      (runGenerateCertificate sampleValidState FetchOutcome.success).requestBody = some f ∧
      f.instructor_name = "" :=
  cert_body_is_form_state.2.1 sampleValidState FetchOutcome.success (by decide) rfl

end MarkdownToPdf
